import Mathlib

/-
  Verification of the tesserax 2D rigid-body physics core
  (src/tesserax/physics/) against its natural-language specification.

  The embedding uses exact rational arithmetic (ℚ) for the Python floats.
  The square root (math.sqrt) and the trigonometric functions (math.cos,
  math.sin) are irrational-valued, so the embedding is parametrised by a
  numeric oracle carrying those three functions; theorems assume only the
  oracle values actually used (for example that the oracle square root of
  10000 is 100), and the concrete oracles scenOracle and trigOracle carry
  the exact values for the scenarios below.
-/

namespace Tesserax

/-- Modelled from the spec: the Vector/Point primitive is external to the
physics core (spec §2, reused from the scene-graph; the copy of
tesserax/core.py in the snapshot carries only the `x`, `y` fields while
every physics call site uses 2D vector arithmetic, magnitude and
normalization on it). Plain 2D rational point. -/
structure Point where
  x : ℚ
  y : ℚ
deriving DecidableEq

instance : Add Point := ⟨fun p q => ⟨p.x + q.x, p.y + q.y⟩⟩

instance : Sub Point := ⟨fun p q => ⟨p.x - q.x, p.y - q.y⟩⟩

instance : HMul Point ℚ Point := ⟨fun p s => ⟨p.x * s, p.y * s⟩⟩

instance : HDiv Point ℚ Point := ⟨fun p s => ⟨p.x / s, p.y / s⟩⟩

/-- Numeric oracle for the irrational-valued library functions used by the
source: `math.sqrt`, `math.cos`, `math.sin`. -/
structure NumOracle where
  sqrtQ : ℚ → ℚ
  cosQ : ℚ → ℚ
  sinQ : ℚ → ℚ

/-- The square-root values used by the concrete scenarios: exact on each of
the perfect squares that actually appears (225, 10000, 15625 and 0). -/
def scenSqrt (q : ℚ) : ℚ :=
  if q = 225 then 15 else if q = 10000 then 100 else if q = 15625 then 125 else 0

/-- The concrete oracle used by witnesses: the scenario square-root table;
cosine and sine are only ever applied at 0 by the faithful embedding (see
`get_box_vertices`), where 1 and 0 are the exact values. -/
def scenOracle : NumOracle := ⟨scenSqrt, fun _ => 1, fun _ => 0⟩

/-- Modelled from the spec §2: Euclidean magnitude of a vector, the square
root being taken through the oracle. -/
def Point.magnitude (sq : ℚ → ℚ) (p : Point) : ℚ := sq (p.x * p.x + p.y * p.y)

/-- Modelled from the spec §2 and §7: normalization, with the mandated
division-by-zero guard (the zero vector normalizes to itself). -/
def Point.normalize (sq : ℚ → ℚ) (p : Point) : Point :=
  let m := p.magnitude sq
  if m = 0 then ⟨0, 0⟩ else ⟨p.x / m, p.y / m⟩

/-- physics/core.py: Material dataclass. -/
structure Material where
  density : ℚ
  restitution : ℚ
  friction : ℚ
deriving DecidableEq

/-- Material() default: density 1.0, restitution 0.5, friction 0.3. -/
def Material.default : Material := ⟨1, 1/2, 3/10⟩

/-- physics/colliders.py: CircleCollider(radius) and BoxCollider(width, height). -/
inductive Collider where
  | circle (radius : ℚ)
  | box (width height : ℚ)
deriving DecidableEq

/-- tesserax/core.py: Bounds dataclass (the fields the physics core reads). -/
structure Bounds where
  x : ℚ
  y : ℚ
  width : ℚ
  height : ℚ
deriving DecidableEq

/-- tesserax/core.py: Bounds.center. -/
def Bounds.center (b : Bounds) : Point := ⟨b.x + b.width / 2, b.y + b.height / 2⟩

/-- Modelled from the spec §6: the external renderable shape, of which the
physics core reads `bounds()` (axis-aligned bounding box), the transform
rotation (radians) at construction, and `local()` bounds in the baking step.
The scene-graph shape system itself is excluded from the spec (§1). -/
structure ShapeRef where
  boundsRec : Bounds
  rotationT : ℚ
  localB : Bounds
deriving DecidableEq

/-- physics/core.py: Body. Mutable simulation state; exactly the attributes
`Body.__init__` sets.  Note: the angular position attribute is named
`angle` in the source (`self.angle = shape.transform.rotation`); no code
path ever sets a `rotation` attribute on a Body. -/
structure Body where
  shape : ShapeRef
  material : Material
  static : Bool
  pos : Point
  vel : Point
  acc : Point
  angle : ℚ
  angular_vel : ℚ
  torque : ℚ
  inv_mass : ℚ
  inv_inertia : ℚ
  collider : Collider
deriving DecidableEq

/-- physics/core.py: Body.__init__.  Mass = density * (bounding-box area /
1000); box inertia by default, circle inertia only for a CircleCollider;
both inverted, and forced to 0 for static bodies.  (Python would raise
ZeroDivisionError on a zero mass or inertia; in ℚ the division yields 0 —
the theorems about construction assume nonzero mass.) -/
def Body.init (shape : ShapeRef) (collider? : Option Collider)
    (material? : Option Material) (static : Bool) : Body :=
  let material := material?.getD Material.default
  let b := shape.boundsRec
  let area := b.width * b.height
  let mass := material.density * (area / 1000)
  let inv_mass : ℚ := if static then 0 else 1 / mass
  let inv_inertia : ℚ :=
    if static then 0
    else
      match collider? with
      | some (.circle r) => 1 / (1/2 * mass * (r * r))
      | _ => 1 / (mass * (b.width * b.width + b.height * b.height) / 12)
  { shape := shape
    material := material
    static := static
    pos := b.center
    vel := ⟨0, 0⟩
    acc := ⟨0, 0⟩
    angle := shape.rotationT
    angular_vel := 0
    torque := 0
    inv_mass := inv_mass
    inv_inertia := inv_inertia
    collider := collider?.getD (.box b.width b.height) }

/-- physics/core.py: Body.apply_force. No-op on static bodies; adds
force * inv_mass to the acceleration accumulator, and torque when a world
point of application is given. -/
def Body.apply_force (b : Body) (force : Point) (point? : Option Point) : Body :=
  if b.static then b
  else
    let b := { b with acc := b.acc + force * b.inv_mass }
    match point? with
    | none => b
    | some point =>
      let r := point - b.pos
      let torque := r.x * force.y - r.y * force.x
      { b with torque := b.torque + torque }

/-- physics/core.py: Body.integrate. Semi-implicit Euler; resets both
accumulators.  The source applies no angular damping factor. -/
def Body.integrate (b : Body) (dt : ℚ) : Body :=
  if b.static then b
  else
    let vel := b.vel + b.acc * dt
    let pos := b.pos + vel * dt
    let angular_acc := b.torque * b.inv_inertia
    let angular_vel := b.angular_vel + angular_acc * dt
    let angle := b.angle + angular_vel * dt
    { b with vel := vel, pos := pos, acc := ⟨0, 0⟩
             angular_vel := angular_vel, angle := angle, torque := 0 }

/-- physics/collisions.py: the Collision result record. -/
structure Collision where
  a : Body
  b : Body
  normal : Point
  depth : ℚ
  point : Point
deriving DecidableEq

/-- physics/collisions.py: Collision._flip — negate the normal and swap the
two body roles. -/
def Collision.flip (c : Collision) : Collision :=
  { c with normal := c.normal * (-1 : ℚ), a := c.b, b := c.a }

/-- physics/collisions.py: circle_to_circle.  The solver is dispatched only
on circle colliders; the catch-all branch models the `cast` precondition. -/
def circle_to_circle (sq : ℚ → ℚ) (a b : Body) : Option Collision :=
  match a.collider, b.collider with
  | .circle ra, .circle rb =>
    let n := b.pos - a.pos
    let dist := n.magnitude sq
    let r := ra + rb
    if r < dist then none
    else
      let normal := if 0 < dist then n.normalize sq else ⟨1, 0⟩
      let contact := a.pos + normal * ra
      some ⟨a, b, normal, r - dist, contact⟩
  | _, _ => none

/-- physics/collisions.py: circle_to_box.  The source reads
`getattr(box, "rotation", 0.0)`; a Body stores its angular position in the
`angle` attribute and never has a `rotation` attribute, so the default 0.0
is always returned and `box_rot` is 0 regardless of the body's angle. -/
def circle_to_box (O : NumOracle) (circ box : Body) : Option Collision :=
  match circ.collider, box.collider with
  | .circle r, .box w h =>
    let box_rot : ℚ := 0
    let rel := circ.pos - box.pos
    let cos_r := O.cosQ (-box_rot)
    let sin_r := O.sinQ (-box_rot)
    let lx := rel.x * cos_r - rel.y * sin_r
    let ly := rel.x * sin_r + rel.y * cos_r
    let hw := w / 2
    let hh := h / 2
    let cx := max (-hw) (min lx hw)
    let cy := max (-hh) (min ly hh)
    let dx := lx - cx
    let dy := ly - cy
    let dist_sq := dx * dx + dy * dy
    if r * r < dist_sq then none
    else
      let dist := O.sqrtQ dist_sq
      let step :=
        if dist = 0 then (Point.mk 0 (-1), r)
        else (Point.mk (dx / dist) (dy / dist), r - dist)
      let local_n := step.1 * (-1 : ℚ)
      let depth := step.2
      let cos_w := O.cosQ box_rot
      let sin_w := O.sinQ box_rot
      let nx := local_n.x * cos_w - local_n.y * sin_w
      let ny := local_n.x * sin_w + local_n.y * cos_w
      let wx := cx * cos_w - cy * sin_w
      let wy := cx * sin_w + cy * cos_w
      let contact := box.pos + Point.mk wx wy
      some ⟨circ, box, ⟨nx, ny⟩, depth, contact⟩
  | _, _ => none

/-- physics/collisions.py: _get_box_vertices.  As with circle_to_box, the
source reads `rot = getattr(b, "rotation", 0.0)` and a Body never carries a
`rotation` attribute, so `rot` is always 0 and the rotation machinery below
runs at angle 0 whatever the body's `angle` holds. -/
def get_box_vertices (O : NumOracle) (b : Body) : List Point :=
  match b.collider with
  | .box w h =>
    let hw := w / 2
    let hh := h / 2
    let corners : List Point := [⟨-hw, -hh⟩, ⟨hw, -hh⟩, ⟨hw, hh⟩, ⟨-hw, hh⟩]
    let rot : ℚ := 0
    let cos_r := O.cosQ rot
    let sin_r := O.sinQ rot
    corners.map (fun p =>
      let rx := p.x * cos_r - p.y * sin_r
      let ry := p.x * sin_r + p.y * cos_r
      Point.mk (rx + b.pos.x) (ry + b.pos.y))
  | _ => []

/-- Modelled from the spec §4.2, for comparison with `get_box_vertices`:
compute each box's 4 world-space vertices by rotating the local half-extent
corners by the body rotation (the body's `angle` state, the one set at
construction and advanced by integration) and translating by position. -/
def get_box_vertices_spec (O : NumOracle) (b : Body) : List Point :=
  match b.collider with
  | .box w h =>
    let hw := w / 2
    let hh := h / 2
    let corners : List Point := [⟨-hw, -hh⟩, ⟨hw, -hh⟩, ⟨hw, hh⟩, ⟨-hw, hh⟩]
    let cos_r := O.cosQ b.angle
    let sin_r := O.sinQ b.angle
    corners.map (fun p =>
      let rx := p.x * cos_r - p.y * sin_r
      let ry := p.x * sin_r + p.y * cos_r
      Point.mk (rx + b.pos.x) (ry + b.pos.y))
  | _ => []

/-- physics/collisions.py: _get_axes — perpendiculars of the polygon edges,
normalized. -/
def get_axes (sq : ℚ → ℚ) (verts : List Point) : List Point :=
  (List.range verts.length).map (fun i =>
    let p1 := verts.getD i ⟨0, 0⟩
    let p2 := verts.getD ((i + 1) % verts.length) ⟨0, 0⟩
    let edge := p2 - p1
    Point.normalize sq ⟨-edge.y, edge.x⟩)

/-- physics/collisions.py: _project — min and max of the vertex projections
onto an axis.  The float("inf")/float("-inf") initial accumulators are
modelled by an Option state (any projection beats the infinities). -/
def project (verts : List Point) (axis : Point) : Option (ℚ × ℚ) :=
  verts.foldl (fun st v =>
    let proj := v.x * axis.x + v.y * axis.y
    match st with
    | none => some (proj, proj)
    | some (lo, hi) => some (min lo proj, max hi proj)) none

/-- physics/collisions.py: the SAT loop of box_to_box.  Outer `none` means a
separating gap was found (the source returns None from inside the loop);
`some st` is the carried (min_overlap, best_axis) state, itself an Option
modelling the float("inf") initial minimum.  The inner wildcard branch is
unreachable for genuine box vertex lists (4 corners). -/
def sat_loop (vertsA vertsB : List Point) :
    List Point → Option (ℚ × Point) → Option (Option (ℚ × Point))
  | [], st => some st
  | axis :: rest, st =>
    match project vertsA axis, project vertsB axis with
    | some (minA, maxA), some (minB, maxB) =>
      if maxA < minB ∨ maxB < minA then none
      else
        let overlap := min maxA maxB - max minA minB
        let st' :=
          match st with
          | none => some (overlap, axis)
          | some (mo, ba) => if overlap < mo then (overlap, axis) else (mo, ba)
        sat_loop vertsA vertsB rest st'
    | _, _ => none

/-- physics/collisions.py: the deepest-vertex selection of box_to_box —
the vertex of B with minimum projection along the normal (initialised at
verts_b[0] and float("inf"), modelled by the Option accumulator). -/
def deepest_vertex (verts : List Point) (axis : Point) : Point :=
  (verts.foldl (fun st v =>
    let proj := v.x * axis.x + v.y * axis.y
    match st with
    | none => some (proj, v)
    | some (mp, bv) => if proj < mp then some (proj, v) else some (mp, bv)) none
  ).elim ⟨0, 0⟩ Prod.snd

/-- physics/collisions.py: box_to_box (SAT).  The source also computes the
deepest vertex of A (best_vert_a) but never uses it for the returned
contact, which is best_vert_b. -/
def box_to_box (O : NumOracle) (a b : Body) : Option Collision :=
  let verts_a := get_box_vertices O a
  let verts_b := get_box_vertices O b
  let axes := get_axes O.sqrtQ verts_a ++ get_axes O.sqrtQ verts_b
  match sat_loop verts_a verts_b axes none with
  | none => none
  | some none => none
  | some (some (min_overlap, best_axis)) =>
    let direction := b.pos - a.pos
    let best_axis :=
      if direction.x * best_axis.x + direction.y * best_axis.y < 0
      then best_axis * (-1 : ℚ) else best_axis
    let contact := deepest_vertex verts_b best_axis
    some ⟨a, b, best_axis, min_overlap, contact⟩

/-- physics/collisions.py: Collision.solve through the SOLVERS registry in
its final state.  `register(t1, t2, func)` writes the direct entry at
(t1, t2) and then the flipped closure at (t2, t1); for the same-type pairs
(circle, circle) and (box, box) the second write lands on the same key and
OVERWRITES the direct entry, so those pairs dispatch through the flipped
closure `lambda a, b: func(b, a)._flip() if func(b, a) else None`. -/
def Collision.solve (O : NumOracle) (a b : Body) : Option Collision :=
  match a.collider, b.collider with
  | .circle _, .circle _ => (circle_to_circle O.sqrtQ b a).map Collision.flip
  | .circle _, .box _ _ => circle_to_box O a b
  | .box _ _, .circle _ => (circle_to_box O b a).map Collision.flip
  | .box _ _, .box _ _ => (box_to_box O b a).map Collision.flip

/-- physics/collisions.py: Collision._apply_impulse — velocity and angular
velocity changes, guarded per body by the static flag. -/
def Collision.apply_impulse (a b : Body) (impulse ra rb : Point) : Body × Body :=
  let a := if a.static then a else { a with vel := a.vel - impulse * a.inv_mass }
  let b := if b.static then b else { b with vel := b.vel + impulse * b.inv_mass }
  let torque_a := ra.x * impulse.y - ra.y * impulse.x
  let torque_b := rb.x * impulse.y - rb.y * impulse.x
  let a := if a.static then a
           else { a with angular_vel := a.angular_vel - torque_a * a.inv_inertia }
  let b := if b.static then b
           else { b with angular_vel := b.angular_vel + torque_b * b.inv_inertia }
  (a, b)

/-- physics/collisions.py: Collision.resolve — positional correction, then
normal impulse, then friction impulse, returning the updated pair of
bodies.  (Python float division by a zero impulse denominator would raise;
in ℚ it yields 0 — unreachable for the guarded states the world produces.) -/
def Collision.resolve (O : NumOracle) (c : Collision) : Body × Body :=
  let a := c.a
  let b := c.b
  let n := c.normal
  let total_inv_mass := a.inv_mass + b.inv_mass
  if total_inv_mass = 0 then (a, b)
  else
    let correction := max (c.depth - 1/100) 0 / total_inv_mass * (1/2)
    let move := n * correction
    let a := if a.static then a else { a with pos := a.pos - move * a.inv_mass }
    let b := if b.static then b else { b with pos := b.pos + move * b.inv_mass }
    let ra := c.point - a.pos
    let rb := c.point - b.pos
    let va := a.vel + Point.mk (-a.angular_vel * ra.y) (a.angular_vel * ra.x)
    let vb := b.vel + Point.mk (-b.angular_vel * rb.y) (b.angular_vel * rb.x)
    let rv := vb - va
    let vel_along_normal := rv.x * n.x + rv.y * n.y
    if 0 < vel_along_normal then (a, b)
    else
      let raxn := ra.x * n.y - ra.y * n.x
      let rbxn := rb.x * n.y - rb.y * n.x
      let inv_mass_sum := a.inv_mass + b.inv_mass
        + raxn * raxn * a.inv_inertia + rbxn * rbxn * b.inv_inertia
      let e := min a.material.restitution b.material.restitution
      let j := -(1 + e) * vel_along_normal / inv_mass_sum
      let impulse := n * j
      let ab := Collision.apply_impulse a b impulse ra rb
      let a := ab.1
      let b := ab.2
      let t := (rv - n * vel_along_normal).normalize O.sqrtQ
      let raxt := ra.x * t.y - ra.y * t.x
      let rbxt := rb.x * t.y - rb.y * t.x
      let inv_mass_sum_t := a.inv_mass + b.inv_mass
        + raxt * raxt * a.inv_inertia + rbxt * rbxt * b.inv_inertia
      let jt := -(rv.x * t.x + rv.y * t.y) / inv_mass_sum_t
      let mu := O.sqrtQ (a.material.friction * b.material.friction)
      let max_j := j * mu
      let friction_impulse :=
        if max_j < |jt| then t * (max_j * (if 0 < jt then (1 : ℚ) else -1))
        else t * jt
      Collision.apply_impulse a b friction_impulse ra rb

/-- physics/forces.py: the concrete Field variants.  Gravity stores
Point(0, g); Drag stores the linear coefficient; InverseDistanceField
stores intensity, center and integer exponent. -/
inductive Field where
  | gravity (g : ℚ)
  | drag (k : ℚ)
  | invDist (intensity : ℚ) (center : Point) (exponent : ℤ)
deriving DecidableEq

/-- physics/forces.py: InverseDistanceField._apply.  The method body is
`f = b.mass * self.intensity / (self.center - b.pos).magnitude() ** self.exponent`
followed by `b.apply((self.center - b.pos).normalize() * f)`.  A Body has
no `mass` attribute (only `inv_mass`) and no `apply` method (the method is
`apply_force`), so Python raises AttributeError at the first read, before
any state change. -/
def Field.applyInvDist (_ : Body) : Except String Body :=
  .error "AttributeError: Body object has no attribute mass"

/-- physics/forces.py: SimpleField.apply for the InverseDistanceField —
iterate the bodies in order, skip static ones, call the crashing _apply on
each non-static one (so the first non-static body raises). -/
def applyIDFList : List Body → Except String (List Body)
  | [] => .ok []
  | b :: rest =>
    if b.static then
      match applyIDFList rest with
      | .ok rest' => .ok (b :: rest')
      | .error e => .error e
    else
      match Field.applyInvDist b with
      | .ok b' =>
        match applyIDFList rest with
        | .ok rest' => .ok (b' :: rest')
        | .error e => .error e
      | .error e => .error e

/-- physics/forces.py: Field.apply for each variant.  Gravity and Drag add
to the acceleration accumulator of every non-static body. -/
def Field.apply (f : Field) (bodies : List Body) : Except String (List Body) :=
  match f with
  | .gravity g =>
    .ok (bodies.map (fun b =>
      if b.static then b else { b with acc := b.acc + Point.mk 0 g }))
  | .drag k =>
    .ok (bodies.map (fun b =>
      if b.static then b else { b with acc := b.acc - b.vel * k }))
  | .invDist _ _ _ => applyIDFList bodies

/-- physics/constraints.py: the concrete Constraint variants.  A Python
constraint holds references to its two bodies; the reference semantics is
embedded by indices into the world's body list (the objects the world
mutates), matching how constraints are built against bodies added to a
world. -/
inductive Constraint where
  | spring (i j : ℕ) (length k damping : ℚ)
  | rod (i j : ℕ) (length : ℚ)
deriving DecidableEq

/-- physics/constraints.py: Spring.solve and Rod.solve.  Both read the two
bodies, no-op when the distance is 0 (and, for Rod, when the inverse-mass
sum is 0), and write the updated bodies back; the second body is re-read
after the first write so that aliased references (i = j) behave as the
shared Python object would. -/
def Constraint.solve (O : NumOracle) (c : Constraint) (bodies : List Body) :
    List Body :=
  match c with
  | .spring i j length k damping =>
    match bodies.get? i, bodies.get? j with
    | some a, some b =>
      let delta := b.pos - a.pos
      let dist := delta.magnitude O.sqrtQ
      if dist = 0 then bodies
      else
        let force_mag := (dist - length) * k
        let rel_vel := b.vel - a.vel
        let normal := delta / dist
        let vel_along_normal := rel_vel.x * normal.x + rel_vel.y * normal.y
        let damping_force := vel_along_normal * damping
        let total_force := force_mag + damping_force
        let f_vector := normal * total_force
        let bodies1 := bodies.set i (a.apply_force f_vector none)
        match bodies1.get? j with
        | some b1 => bodies1.set j (b1.apply_force (f_vector * (-1 : ℚ)) none)
        | none => bodies1
    | _, _ => bodies
  | .rod i j length =>
    match bodies.get? i, bodies.get? j with
    | some a, some b =>
      let delta := b.pos - a.pos
      let dist := delta.magnitude O.sqrtQ
      if dist = 0 then bodies
      else
        let error := dist - length
        let total_inv_mass := a.inv_mass + b.inv_mass
        if total_inv_mass = 0 then bodies
        else
          let correction := (delta / dist) * (error / total_inv_mass)
          let bodies1 :=
            if a.static then bodies
            else bodies.set i { a with pos := a.pos + correction * a.inv_mass }
          match bodies1.get? j with
          | some b1 =>
            if b1.static then bodies1
            else bodies1.set j { b1 with pos := b1.pos - correction * b1.inv_mass }
          | none => bodies1
    | _, _ => bodies

/-- physics/world.py: the World — bodies, fields, constraints. -/
structure World where
  bodies : List Body
  fields : List Field
  constraints : List Constraint
deriving DecidableEq

/-- physics/world.py: one iteration of the collision double loop of _step —
look up the pair, skip static-static, solve, resolve, write both bodies
back.  Collision.solve always returns the first argument in the `a` role,
so the write-back indices line up. -/
def pairStep (O : NumOracle) (bodies : List Body) (i j : ℕ) : List Body :=
  match bodies.get? i, bodies.get? j with
  | some a, some b =>
    if a.static ∧ b.static then bodies
    else
      match Collision.solve O a b with
      | some col =>
        let ab := col.resolve O
        (bodies.set i ab.1).set j ab.2
      | none => bodies
  | _, _ => bodies

/-- physics/world.py: the O(n²) collision sweep of _step — all index pairs
i < j in ascending order, each iteration seeing the current body states. -/
def collidePairs (O : NumOracle) (bodies : List Body) : List Body :=
  let n := bodies.length
  (List.range n).foldl (fun bs i =>
    (List.range n).foldl (fun bs j => if i < j then pairStep O bs i j else bs) bs)
    bodies

/-- physics/world.py: the field-application phase of _step, in list order. -/
def stepFields (fields : List Field) (bodies : List Body) :
    Except String (List Body) :=
  match fields with
  | [] => .ok bodies
  | f :: rest => do
    let bodies' ← f.apply bodies
    stepFields rest bodies'

/-- physics/world.py: World._step — fields, then constraints, then
integration, then collision resolution; the order is fixed. -/
def World.step (O : NumOracle) (w : World) (dt : ℚ) : Except String World := do
  let bodies ← stepFields w.fields w.bodies
  let bodies := w.constraints.foldl (fun bs c => Constraint.solve O c bs) bodies
  let bodies := bodies.map (fun b => b.integrate dt)
  let bodies := collidePairs O bodies
  .ok { w with bodies := bodies }

/-- Iterated World._step. -/
def World.stepN (O : NumOracle) (w : World) (dt : ℚ) : ℕ → Except String World
  | 0 => .ok w
  | n + 1 => do
    let w' ← w.step O dt
    World.stepN O w' dt n

/-- physics/world.py: the `b.rotation` attribute read in World.simulate's
recording loop (`tracks[b]["rotation"][t_norm] = b.rotation`).
Body.__init__ sets `self.angle` and nothing ever sets a `rotation`
attribute on a Body, so the read raises AttributeError. -/
def Body.rotationRead (_ : Body) : Except String ℚ :=
  .error "AttributeError: Body object has no attribute rotation"

/-- The per-body time-series tracks of World.simulate (tx, ty, rotation
channels, each keyed by normalized time). -/
structure BodyTrack where
  tx : List (ℚ × ℚ)
  ty : List (ℚ × ℚ)
  rchan : List (ℚ × ℚ)
deriving DecidableEq

/-- physics/world.py: the per-step recording loop of World.simulate:
for each body append (t_norm, pos.x), (t_norm, pos.y) and
(t_norm, b.rotation) — the last read raising AttributeError. -/
def recordAll (t_norm : ℚ) : List Body → List BodyTrack →
    Except String (List BodyTrack)
  | [], _ => .ok []
  | _ :: _, [] => .ok []
  | b :: bs, tr :: trs => do
    let r ← b.rotationRead
    let rest ← recordAll t_norm bs trs
    .ok ({ tx := tr.tx ++ [(t_norm, b.pos.x)]
           ty := tr.ty ++ [(t_norm, b.pos.y)]
           rchan := tr.rchan ++ [(t_norm, r)] } :: rest)

/-- physics/world.py: the main loop of World.simulate — record, step,
advance time, for the computed number of steps. -/
def simLoop (O : NumOracle) (dt duration : ℚ) :
    ℕ → ℚ → World → List BodyTrack → Except String (World × List BodyTrack)
  | 0, _, w, tracks => .ok (w, tracks)
  | n + 1, time, w, tracks => do
    let t_norm := if 0 < duration then time / duration else 0
    let tracks' ← recordAll t_norm w.bodies tracks
    let w' ← w.step O dt
    simLoop O dt duration n (time + dt) w' tracks'

/-- tesserax/core.py: Bounds.union over a non-empty list (the
`Bounds.union(*all_bounds)` call of World.simulate is guarded by
`if all_bounds`). -/
def boundsUnion (b : Bounds) (rest : List Bounds) : Bounds :=
  let all := b :: rest
  let x_min := (all.map Bounds.x).foldl min b.x
  let y_min := (all.map Bounds.y).foldl min b.y
  let x_max := (all.map (fun c => c.x + c.width)).foldl max (b.x + b.width)
  let y_max := (all.map (fun c => c.y + c.height)).foldl max (b.y + b.height)
  ⟨x_min, y_min, x_max - x_min, y_max - y_min⟩

/-- physics/world.py: the per-body swept bounds of World.simulate — the
local shape bounds translated by the min/max recorded offsets, skipped when
a track is empty. -/
def sweptBounds (b : Body) (tr : BodyTrack) : Option Bounds :=
  let txs := tr.tx.map Prod.snd
  let tys := tr.ty.map Prod.snd
  match txs, tys with
  | tx0 :: txr, ty0 :: tyr =>
    let min_tx := txr.foldl min tx0
    let max_tx := txr.foldl max tx0
    let min_ty := tyr.foldl min ty0
    let max_ty := tyr.foldl max ty0
    let localBox := b.shape.localB
    some ⟨min_tx + localBox.x, min_ty + localBox.y,
          (max_tx - min_tx) + localBox.width, (max_ty - min_ty) + localBox.height⟩
  | _, _ => none

/-- physics/world.py: World.simulate.  steps = int(duration / dt) (floor,
as the durations are nonnegative); tracks are recorded per body per step
keyed by t_norm = elapsed / duration, then baked with the union of the
swept bounds.  The keyframe animation sink is external (spec §1); the
result carries the final world, the tracks and the overall bounds. -/
def World.simulate (O : NumOracle) (w : World) (duration dt : ℚ) :
    Except String (World × List BodyTrack × Option Bounds) := do
  let steps := (duration / dt).floor.toNat
  let tracks := w.bodies.map (fun _ => BodyTrack.mk [] [] [])
  let res ← simLoop O dt duration steps 0 w tracks
  let w' := res.1
  let tracks' := res.2
  let all_bounds := (w'.bodies.zip tracks').filterMap
    (fun p => sweptBounds p.1 p.2)
  let total_bounds :=
    match all_bounds with
    | [] => none
    | b :: rest => some (boundsUnion b rest)
  .ok (w', tracks', total_bounds)

/-- A circle shape of radius r centered at the origin, as the external
scene-graph produces it: bounding box (-r, -r, 2r, 2r), no rotation. -/
def circleShape (r : ℚ) : ShapeRef :=
  ⟨⟨-r, -r, 2 * r, 2 * r⟩, 0, ⟨-r, -r, 2 * r, 2 * r⟩⟩

/-- Scenario body: dynamic radius-10 circle at (0, 0) (used by the
circle-circle scenarios). -/
def cA : Body := Body.init (circleShape 10) (some (.circle 10)) none false

/-- Scenario body: dynamic radius-10 circle at (15, 0). -/
def cBnear : Body := { cA with pos := ⟨15, 0⟩ }

/-- Scenario body: dynamic radius-10 circle at (100, 0). -/
def cBfar : Body := { cA with pos := ⟨100, 0⟩ }

/-- Scenario body: dynamic radius-5 circle coincident with cA at (0, 0)
(degenerate circle-circle configuration). -/
def cCoin : Body := { Body.init (circleShape 5) (some (.circle 5)) none false
                      with pos := ⟨0, 0⟩ }

/-- Scenario world for the simulate() scenario: a single dynamic circle
with initial velocity (10, 0), no fields, no constraints. -/
def simWorld : World :=
  ⟨[{ cA with vel := ⟨10, 0⟩ }], [], []⟩

/-- Scenario body: a dynamic 20×20 box at the origin (its `angle` is set by
the theorems that use it). -/
def boxBody : Body := Body.init ⟨⟨-10, -10, 20, 20⟩, 0, ⟨-10, -10, 20, 20⟩⟩
  (some (.box 20 20)) none false

/-- Scenario body: static radius-1 circle at (0, 0), for the static
invariant witness. -/
def statBody : Body := Body.init (circleShape 1) (some (.circle 1)) none true

/-- Scenario body: dynamic radius-1 circle at (100, 0) (shape bounds
(99, -1, 2, 2)), for the static invariant witness. -/
def dynBody : Body := Body.init ⟨⟨99, -1, 2, 2⟩, 0, ⟨99, -1, 2, 2⟩⟩
  (some (.circle 1)) none false

/-- Scenario world for the static invariant witness: a static body, a far
dynamic body, and gravity g = 75. -/
def statWorld : World := ⟨[statBody, dynBody], [.gravity 75], []⟩

/-- The state of statWorld after one _step with dt = 1: the static body
untouched, the dynamic body accelerated to velocity (0, 75) and moved to
(100, 75) with its accumulator reset; the pair is 125 apart and does not
collide. -/
def statWorldAfter : World :=
  ⟨[statBody, { dynBody with pos := ⟨100, 75⟩, vel := ⟨0, 75⟩ }],
   [.gravity 75], []⟩

/-- Rod scenario bodies: dynamic radius-5 circles (equal inverse mass 50)
at (0, 0) and (100, 0). -/
def rodA : Body := { Body.init (circleShape 5) (some (.circle 5)) none false
                     with pos := ⟨0, 0⟩ }

/-- Second rod scenario body, at (100, 0). -/
def rodB : Body := { rodA with pos := ⟨100, 0⟩ }

/-- Scenario body: boxBody with an angular velocity of 1 rad/s, for the
integrate counterexample. -/
def spinBody : Body := { boxBody with angular_vel := 1 }

/-- An oracle whose cosine/sine are exact at 0 and take the rational values
3/5 and 4/5 at every other angle (there is a real angle, arctan(4/3),
with exactly these cosine and sine). -/
def trigOracle : NumOracle :=
  ⟨scenSqrt, fun x => if x = 0 then 1 else 3/5, fun x => if x = 0 then 0 else 4/5⟩

/-- Scenario body: the 20×20 box rotated to angle 1 radian (its state
angle; the collision code never reads it). -/
def tiltedBox : Body := { boxBody with angle := 1 }

/-- Dot product of two points, used to state distance and perpendicularity
conditions. -/
def dot (p q : Point) : ℚ := p.x * q.x + p.y * q.y

/-- The symmetry contract of spec §8 between solve(a, b) and solve(b, a):
both none, or equal depths, negated normals and swapped body fields. -/
def SymmetricAt (O : NumOracle) (a b : Body) : Prop :=
  match Collision.solve O a b, Collision.solve O b a with
  | none, none => True
  | some c, some c' =>
    c.depth = c'.depth ∧ c.normal = c'.normal * (-1 : ℚ) ∧
    c.a = c'.b ∧ c.b = c'.a
  | _, _ => False

/-- Nondegeneracy of a body pair for the symmetry contract: a positive
computed center distance for circle pairs; for box pairs, exact oracle
square roots on the edge lengths (so both boxes present the same four unit
axes), positive dimensions, exact cosine/sine at 0, and a selected SAT
axis that is not perpendicular to the center offset.  Mixed circle/box
pairs are never degenerate. -/
def NonDeg (O : NumOracle) (a b : Body) : Prop :=
  match a.collider, b.collider with
  | .circle _, .circle _ => 0 < (b.pos - a.pos).magnitude O.sqrtQ
  | .circle _, .box _ _ => True
  | .box _ _, .circle _ => True
  | .box w1 h1, .box w2 h2 =>
    (O.cosQ 0 = 1 ∧ O.sinQ 0 = 0) ∧
    (0 < w1 ∧ 0 < h1 ∧ 0 < w2 ∧ 0 < h2) ∧
    (O.sqrtQ (w1 * w1) = w1 ∧ O.sqrtQ (h1 * h1) = h1 ∧
     O.sqrtQ (w2 * w2) = w2 ∧ O.sqrtQ (h2 * h2) = h2) ∧
    (∀ ov ax,
      sat_loop (get_box_vertices O a) (get_box_vertices O b)
        (get_axes O.sqrtQ (get_box_vertices O a) ++
         get_axes O.sqrtQ (get_box_vertices O b)) none = some (some (ov, ax)) →
      dot ax (b.pos - a.pos) ≠ 0)

/-- The invariant carried through every phase of a _step: bodies that are
static pass through a body-list transformation unchanged. -/
def PreservesStatic (bs bs' : List Body) : Prop :=
  ∀ i b, bs.get? i = some b → b.static = true → bs'.get? i = some b

/-! Component lemmas for the Point arithmetic instances. -/

@[simp] theorem Point.add_x (p q : Point) : (p + q).x = p.x + q.x := rfl

@[simp] theorem Point.add_y (p q : Point) : (p + q).y = p.y + q.y := rfl

@[simp] theorem Point.sub_x (p q : Point) : (p - q).x = p.x - q.x := rfl

@[simp] theorem Point.sub_y (p q : Point) : (p - q).y = p.y - q.y := rfl

@[simp] theorem Point.smul_x (p : Point) (s : ℚ) : (p * s).x = p.x * s := rfl

@[simp] theorem Point.smul_y (p : Point) (s : ℚ) : (p * s).y = p.y * s := rfl

@[simp] theorem Point.sdiv_x (p : Point) (s : ℚ) : (p / s).x = p.x / s := rfl

@[simp] theorem Point.sdiv_y (p : Point) (s : ℚ) : (p / s).y = p.y / s := rfl

theorem Point.add_def (p q : Point) : p + q = ⟨p.x + q.x, p.y + q.y⟩ := rfl

theorem Point.sub_def (p q : Point) : p - q = ⟨p.x - q.x, p.y - q.y⟩ := rfl

theorem Point.smul_def (p : Point) (s : ℚ) : p * s = ⟨p.x * s, p.y * s⟩ := rfl

theorem Point.sdiv_def (p : Point) (s : ℚ) : p / s = ⟨p.x / s, p.y / s⟩ := rfl

theorem Point.ext_xy {p q : Point} (hx : p.x = q.x) (hy : p.y = q.y) : p = q := by
  cases p; cases q; simp_all

theorem Point.double_flip (p : Point) : (p * (-1 : ℚ)) * (-1 : ℚ) = p := by
  apply Point.ext_xy <;> simp

@[simp] theorem Collision.flip_a (c : Collision) : c.flip.a = c.b := rfl

@[simp] theorem Collision.flip_b (c : Collision) : c.flip.b = c.a := rfl

@[simp] theorem Collision.flip_normal (c : Collision) :
    c.flip.normal = c.normal * (-1 : ℚ) := rfl

@[simp] theorem Collision.flip_depth (c : Collision) : c.flip.depth = c.depth := rfl

@[simp] theorem Collision.flip_point (c : Collision) : c.flip.point = c.point := rfl

/-- C7 counterexample: the source integrate applies no angular damping.
With angular velocity 1 and no torque, one integrate step leaves the
angular velocity at 1, while the claimed 0.99 damping factor would leave
0.99. -/
theorem claim_C7_cex :
    (spinBody.integrate 1).angular_vel = 1 ∧ (1 : ℚ) ≠ 99/100 * 1 := by
  constructor
  · norm_num [spinBody, boxBody, Body.init, Body.integrate]
  · norm_num

/-- C7 amended: Body.integrate on a non-static body updates velocity from
the accumulated acceleration, position from the updated velocity, angular
velocity from the torque, rotation from the updated angular velocity, and
resets both accumulators — but applies no angular damping factor: the
angular velocity is exactly the torque-integrated value. -/
theorem claim_C7_amended (b : Body) (dt : ℚ) (h : b.static = false) :
    b.integrate dt =
      { b with vel := b.vel + b.acc * dt,
               pos := b.pos + (b.vel + b.acc * dt) * dt,
               acc := ⟨0, 0⟩,
               angular_vel := b.angular_vel + b.torque * b.inv_inertia * dt,
               angle := b.angle + (b.angular_vel + b.torque * b.inv_inertia * dt) * dt,
               torque := 0 } := by
  simp [Body.integrate, h]

/-- C7 witness: the amended integrate equation evaluated on the spinning
scenario body. -/
theorem claim_C7_witness :
    spinBody.integrate 1 =
      { spinBody with
          vel := spinBody.vel + spinBody.acc * (1 : ℚ),
          pos := spinBody.pos + (spinBody.vel + spinBody.acc * (1 : ℚ)) * (1 : ℚ),
          acc := ⟨0, 0⟩,
          angular_vel := spinBody.angular_vel + spinBody.torque * spinBody.inv_inertia * 1,
          angle := spinBody.angle +
            (spinBody.angular_vel + spinBody.torque * spinBody.inv_inertia * 1) * 1,
          torque := 0 } :=
  claim_C7_amended spinBody 1 rfl

/-- C9: InverseDistanceField application does not add any force — it
raises AttributeError on every non-static body, because the source reads
`b.mass` (a Body stores only `inv_mass`) and calls `b.apply` (the method
is `apply_force`). -/
theorem claim_C9_invdist_attr_error (intensity : ℚ) (center : Point)
    (exponent : ℤ) (b : Body) (h : b.static = false) :
    Field.apply (.invDist intensity center exponent) [b] =
      .error "AttributeError: Body object has no attribute mass" := by
  simp [Field.apply, applyIDFList, Field.applyInvDist, h]

/-- C9 witness: the InverseDistanceField crash on the concrete dynamic
circle body. -/
theorem claim_C9_witness :
    Field.apply (.invDist 1000 ⟨0, 0⟩ 2) [cA] =
      .error "AttributeError: Body object has no attribute mass" :=
  claim_C9_invdist_attr_error 1000 ⟨0, 0⟩ 2 cA rfl

/-- C10: for a non-static body the construction-time mass is
density * (bounding-box area / 1000) regardless of the collider (a
circle-collider body included), and the stored inverse mass is its
reciprocal. -/
theorem claim_C10_mass_from_bbox (shape : ShapeRef) (collider? : Option Collider)
    (material : Material)
    (h : material.density * (shape.boundsRec.width * shape.boundsRec.height / 1000) ≠ 0) :
    (Body.init shape collider? (some material) false).inv_mass =
      1 / (material.density * (shape.boundsRec.width * shape.boundsRec.height / 1000))
  ∧ (Body.init shape collider? (some material) false).inv_mass *
      (material.density * (shape.boundsRec.width * shape.boundsRec.height / 1000)) = 1 := by
  refine ⟨rfl, ?_⟩
  show 1 / (material.density * (shape.boundsRec.width * shape.boundsRec.height / 1000)) *
    (material.density * (shape.boundsRec.width * shape.boundsRec.height / 1000)) = 1
  exact one_div_mul_cancel h

/-- C1: simulate on the scenario world (one dynamic circle with velocity
(10, 0), no fields or constraints, duration 1, dt 1/10) does NOT run to
completion: the very first recording step reads `b.rotation`, an attribute
no Body has (the angular state lives in `angle`), so Python raises
AttributeError — the code contradicts its own recording comment and the
repository test test_world_simulate. -/
theorem claim_C1_simulate_rotation_error :
    World.simulate scenOracle simWorld 1 (1/10) =
      .error "AttributeError: Body object has no attribute rotation" := by
  have hsteps : ((1:ℚ) / (1/10)).floor.toNat = 10 := by
    rw [show ((1:ℚ)/(1/10)) = 10 by norm_num]
    rfl
  unfold World.simulate
  rw [hsteps]
  simp [simLoop, recordAll, Body.rotationRead, simWorld, Except.bind, bind]

/-- C10 witness: the circle-collider scenario body of radius 10 — its mass
comes from the 20×20 bounding box (400/1000), giving inverse mass 5/2. -/
theorem claim_C10_witness :
    (Body.init (circleShape 10) (some (.circle 10)) (some Material.default)
        false).inv_mass =
      1 / (Material.default.density *
        ((circleShape 10).boundsRec.width * (circleShape 10).boundsRec.height / 1000))
  ∧ (Body.init (circleShape 10) (some (.circle 10)) (some Material.default)
        false).inv_mass =
      5/2 := by
  refine ⟨(claim_C10_mass_from_bbox (circleShape 10) (some (.circle 10))
    Material.default (by norm_num [Material.default, circleShape])).1, ?_⟩
  norm_num [Body.init, Material.default, circleShape]

/-- C4: Collision.solve on two circle bodies returns none whenever the
squared center distance exceeds the squared radius sum (the oracle square
root being genuine at that squared distance); concretely, radius-10
circles at (0,0) and (100,0) yield none, while radius-10 circles at (0,0)
and (15,0) yield a collision of depth 5 with unit normal (1,0). -/
theorem claim_C4_circle_separation (O : NumOracle) (a b : Body) (ra rb : ℚ)
    (ha : a.collider = .circle ra) (hb : b.collider = .circle rb)
    (hs0 : 0 ≤ O.sqrtQ (dot (b.pos - a.pos) (b.pos - a.pos)))
    (hs1 : O.sqrtQ (dot (b.pos - a.pos) (b.pos - a.pos)) *
        O.sqrtQ (dot (b.pos - a.pos) (b.pos - a.pos)) =
        dot (b.pos - a.pos) (b.pos - a.pos))
    (hfar : (ra + rb) * (ra + rb) < dot (b.pos - a.pos) (b.pos - a.pos)) :
    Collision.solve O a b = none
  ∧ Collision.solve scenOracle cA cBfar = none
  ∧ (Collision.solve scenOracle cA cBnear).map (fun c => (c.depth, c.normal)) =
      some (5, ⟨1, 0⟩) := by
  refine ⟨?_, ?_, ?_⟩
  · have harg : (a.pos - b.pos).x * (a.pos - b.pos).x +
        (a.pos - b.pos).y * (a.pos - b.pos).y =
        dot (b.pos - a.pos) (b.pos - a.pos) := by
      simp only [dot, Point.sub_x, Point.sub_y]; ring
    have hgt : rb + ra < O.sqrtQ (dot (b.pos - a.pos) (b.pos - a.pos)) := by
      by_contra hcon
      push_neg at hcon
      have h2 := mul_self_le_mul_self hs0 hcon
      rw [hs1] at h2
      nlinarith [hfar]
    simp only [Collision.solve, ha, hb]
    simp only [circle_to_circle, ha, hb, Point.magnitude]
    simp only [harg]
    rw [if_pos hgt]
    rfl
  · norm_num [Collision.solve, cA, cBfar, Body.init, circleShape, Bounds.center,
      circle_to_circle, Point.magnitude, scenOracle, scenSqrt, Material.default,
      Point.sub_def]
  · norm_num [Collision.solve, cA, cBnear, Body.init, circleShape, Bounds.center,
      circle_to_circle, Collision.flip, Point.magnitude, Point.normalize,
      scenOracle, scenSqrt, Material.default, Point.smul_def, Point.add_def,
      Point.sub_def, Point.sdiv_def]

/-- C4 witness: the general separation statement applied to the concrete
(0,0)/(100,0) radius-10 pair, squared distance 10000. -/
theorem claim_C4_witness :
    Collision.solve scenOracle cA cBfar = none
  ∧ Collision.solve scenOracle cA cBfar = none
  ∧ (Collision.solve scenOracle cA cBnear).map (fun c => (c.depth, c.normal)) =
      some (5, ⟨1, 0⟩) :=
  claim_C4_circle_separation scenOracle cA cBfar 10 10 rfl rfl
    (by norm_num [cA, cBfar, Body.init, circleShape, Bounds.center, dot,
      scenOracle, scenSqrt, Material.default, Point.sub_def])
    (by norm_num [cA, cBfar, Body.init, circleShape, Bounds.center, dot,
      scenOracle, scenSqrt, Material.default, Point.sub_def])
    (by norm_num [cA, cBfar, Body.init, circleShape, Bounds.center, dot,
      Material.default, Point.sub_def])

/-- C5 counterexample: on the overlapping radius-10 circles at (0,0) and
(15,0), solve(a, b) returns normal (1,0) but contact point (5,0) — a point
on the SECOND body's surface — while the claimed formula
a.pos + normal * radius_a gives (10,0). -/
theorem claim_C5_cex :
    (Collision.solve scenOracle cA cBnear).map (fun c => c.normal) = some ⟨1, 0⟩
  ∧ (Collision.solve scenOracle cA cBnear).map (fun c => c.point) = some ⟨5, 0⟩
  ∧ cA.pos + (Point.mk 1 0) * (10 : ℚ) = ⟨10, 0⟩
  ∧ Point.mk 5 0 ≠ ⟨10, 0⟩ := by
  norm_num [Collision.solve, cA, cBnear, Body.init, circleShape, Bounds.center,
    circle_to_circle, Collision.flip, Point.magnitude, Point.normalize,
    scenOracle, scenSqrt, Material.default, Point.smul_def, Point.add_def,
    Point.sub_def, Point.sdiv_def]

/-- C5 amended: for an overlapping pair of circle bodies, solve(a, b)
returns normal (b.pos - a.pos)/dist with fallback (-1, 0) when the
computed distance is not positive, and contact point b.pos - normal * rb
(on the second body's surface): the symmetric registration of
Collision.register overwrites the direct circle-circle entry with the
flipped resolver, so the roles of the two bodies are exchanged relative to
the circle_to_circle source and the fallback normal is negated. -/
theorem claim_C5_amended (O : NumOracle) (a b : Body) (ra rb : ℚ)
    (ha : a.collider = .circle ra) (hb : b.collider = .circle rb)
    (hno : ¬ ra + rb < O.sqrtQ (dot (b.pos - a.pos) (b.pos - a.pos))) :
    ∃ c, Collision.solve O a b = some c ∧ c.a = a ∧ c.b = b ∧
      c.depth = ra + rb - O.sqrtQ (dot (b.pos - a.pos) (b.pos - a.pos)) ∧
      c.normal = (if 0 < O.sqrtQ (dot (b.pos - a.pos) (b.pos - a.pos)) then
          (b.pos - a.pos) / O.sqrtQ (dot (b.pos - a.pos) (b.pos - a.pos))
        else ⟨-1, 0⟩) ∧
      c.point = b.pos - c.normal * rb := by
  have harg : (a.pos - b.pos).x * (a.pos - b.pos).x +
      (a.pos - b.pos).y * (a.pos - b.pos).y =
      dot (b.pos - a.pos) (b.pos - a.pos) := by
    simp only [dot, Point.sub_x, Point.sub_y]; ring
  have hno' : ¬ rb + ra < O.sqrtQ (dot (b.pos - a.pos) (b.pos - a.pos)) := by
    rw [add_comm]; exact hno
  simp only [Collision.solve, ha, hb]
  simp only [circle_to_circle, ha, hb, Point.magnitude]
  simp only [harg]
  rw [if_neg hno']
  by_cases hpos : 0 < O.sqrtQ (dot (b.pos - a.pos) (b.pos - a.pos))
  · rw [if_pos hpos, if_pos hpos]
    refine ⟨_, rfl, by simp, by simp, by simp; ring, ?_, ?_⟩
    · simp only [Collision.flip_normal]
      show Point.normalize O.sqrtQ (a.pos - b.pos) * (-1 : ℚ) =
        (b.pos - a.pos) / O.sqrtQ (dot (b.pos - a.pos) (b.pos - a.pos))
      rw [Point.normalize, Point.magnitude]
      simp only [harg]
      rw [if_neg (ne_of_gt hpos)]
      apply Point.ext_xy <;> simp <;> ring
    · simp only [Collision.flip_point, Collision.flip_normal]
      show b.pos + Point.normalize O.sqrtQ (a.pos - b.pos) * rb =
        b.pos - Point.normalize O.sqrtQ (a.pos - b.pos) * (-1 : ℚ) * rb
      apply Point.ext_xy <;> simp <;> ring
  · rw [if_neg hpos, if_neg hpos]
    refine ⟨_, rfl, by simp, by simp, by simp; ring, ?_, ?_⟩
    · simp only [Collision.flip_normal]
      show (Point.mk 1 0) * (-1 : ℚ) = Point.mk (-1) 0
      apply Point.ext_xy <;> simp
    · simp only [Collision.flip_point, Collision.flip_normal]
      show b.pos + (Point.mk 1 0) * rb =
        b.pos - (Point.mk 1 0) * (-1 : ℚ) * rb
      apply Point.ext_xy <;> simp <;> ring

/-- C5 witness: the amended contact/normal formulas on the concrete
overlapping pair. -/
theorem claim_C5_witness :
    ∃ c, Collision.solve scenOracle cA cBnear = some c ∧ c.a = cA ∧ c.b = cBnear ∧
      c.depth = (10 : ℚ) + 10 -
        scenOracle.sqrtQ (dot (cBnear.pos - cA.pos) (cBnear.pos - cA.pos)) ∧
      c.normal = (if 0 < scenOracle.sqrtQ
            (dot (cBnear.pos - cA.pos) (cBnear.pos - cA.pos)) then
          (cBnear.pos - cA.pos) /
            scenOracle.sqrtQ (dot (cBnear.pos - cA.pos) (cBnear.pos - cA.pos))
        else ⟨-1, 0⟩) ∧
      c.point = cBnear.pos - c.normal * (10 : ℚ) :=
  claim_C5_amended scenOracle cA cBnear 10 10 rfl rfl
    (by norm_num [cA, cBnear, Body.init, circleShape, Bounds.center, dot,
      scenOracle, scenSqrt, Material.default, Point.sub_def])

/-- C2: the box and circle-box resolvers do NOT rotate by the body's
angular state.  Both read `getattr(body, "rotation", 0.0)`, and a Body
never carries a `rotation` attribute (its angle lives in `angle`), so the
rotation used is always 0: (1) the SAT vertices are the axis-aligned
corners whatever the body's angle; (2) the circle-box geometry is
invariant under changing the box body's angle; (3) for a box at a nonzero
angle with cosine 3/5 and sine 4/5 the source vertices differ from the
spec-mandated rotated corners. -/
theorem claim_C2_vertices_ignore_angle (O : NumOracle) (q : ℚ)
    (hc0 : O.cosQ 0 = 1) (hs0 : O.sinQ 0 = 0)
    (hcq : O.cosQ q = 3/5) (hsq : O.sinQ q = 4/5) :
    (∀ (b : Body) (w h : ℚ), b.collider = .box w h →
      get_box_vertices O b =
        [⟨b.pos.x - w/2, b.pos.y - h/2⟩, ⟨b.pos.x + w/2, b.pos.y - h/2⟩,
         ⟨b.pos.x + w/2, b.pos.y + h/2⟩, ⟨b.pos.x - w/2, b.pos.y + h/2⟩])
  ∧ (∀ (circ box : Body) (q1 : ℚ),
      (circle_to_box O circ { box with angle := q1 }).map
          (fun c => (c.normal, c.depth, c.point)) =
        (circle_to_box O circ box).map (fun c => (c.normal, c.depth, c.point)))
  ∧ (∀ b : Body, b.collider = .box 20 20 → b.angle = q →
      get_box_vertices O b ≠ get_box_vertices_spec O b) := by
  refine ⟨?_, ?_, ?_⟩
  · intro b w h hb
    simp only [get_box_vertices, hb, hc0, hs0, List.map]
    norm_num [Point.mk.injEq]
    refine ⟨⟨by ring, by ring⟩, ⟨by ring, by ring⟩, ⟨by ring, by ring⟩, by ring, by ring⟩
  · intro circ box q1
    rcases h1 : circ.collider with r | ⟨w, h⟩
    · rcases h2 : box.collider with r2 | ⟨w2, hh2⟩
      · simp only [circle_to_box, h1, h2]
      · simp only [circle_to_box, h1, h2, apply_ite
          (Option.map (fun (c : Collision) => (c.normal, c.depth, c.point))),
          Option.map_some', Option.map_none']
    · rcases h2 : box.collider with r2 | ⟨w2, hh2⟩
      · simp only [circle_to_box, h1, h2]
      · simp only [circle_to_box, h1, h2]
  · intro b hb hq hcontra
    simp only [get_box_vertices, get_box_vertices_spec, hb, hq, hc0, hs0, hcq, hsq,
      List.map, List.cons.injEq, Point.mk.injEq] at hcontra
    obtain ⟨⟨hx, -⟩, -⟩ := hcontra
    norm_num at hx

/-- C2 witness: the divergence evaluated on the concrete tilted 20×20 box
with the 3-4-5 trig oracle. -/
theorem claim_C2_witness :
    get_box_vertices trigOracle tiltedBox ≠
      get_box_vertices_spec trigOracle tiltedBox :=
  (claim_C2_vertices_ignore_angle trigOracle 1
      (by norm_num [trigOracle]) (by norm_num [trigOracle])
      (by norm_num [trigOracle]) (by norm_num [trigOracle])).2.2
    tiltedBox rfl rfl

/-! List access helpers and the static-preservation lemma chain for C3. -/

theorem get_set_same {α : Type} : ∀ (l : List α) (i : ℕ) (v : α), i < l.length →
    (l.set i v).get? i = some v := by
  intro l
  induction l with
  | nil => intro i v h; simp at h
  | cons x xs ih =>
    intro i v h
    cases i with
    | zero => rfl
    | succ n => simpa using ih n v (by simpa using h)

theorem get_set_diff {α : Type} : ∀ (l : List α) (i j : ℕ) (v : α), i ≠ j →
    (l.set i v).get? j = l.get? j := by
  intro l
  induction l with
  | nil => intro i j v _; simp
  | cons x xs ih =>
    intro i j v hij
    cases i with
    | zero =>
      cases j with
      | zero => exact absurd rfl hij
      | succ m => rfl
    | succ n =>
      cases j with
      | zero => rfl
      | succ m => simpa using ih n m v (by omega)

theorem get_lt_length {α : Type} {l : List α} {i : ℕ} {a : α}
    (h : l.get? i = some a) : i < l.length := by
  by_contra hcon
  push_neg at hcon
  rw [List.get?_eq_none.mpr hcon] at h
  exact Option.noConfusion h

theorem preserves_refl (bs : List Body) : PreservesStatic bs bs :=
  fun _ _ h _ => h

theorem preserves_trans {b1 b2 b3 : List Body} (h12 : PreservesStatic b1 b2)
    (h23 : PreservesStatic b2 b3) : PreservesStatic b1 b3 :=
  fun i b h hs => h23 i b (h12 i b h hs) hs

theorem preserves_map (bs : List Body) (f : Body → Body)
    (hf : ∀ b, b.static = true → f b = b) : PreservesStatic bs (bs.map f) := by
  intro i b h hs
  rw [List.get?_map, h, Option.map_some', hf b hs]

theorem preserves_set (bs : List Body) (i : ℕ) (v a : Body)
    (hget : bs.get? i = some a) (hv : a.static = true → v = a) :
    PreservesStatic bs (bs.set i v) := by
  intro j b hj hs
  by_cases hij : i = j
  · subst hij
    rw [hget] at hj
    obtain rfl := Option.some.inj hj
    rw [get_set_same bs i v (get_lt_length hget), hv hs]
  · rw [get_set_diff bs i j v hij, hj]

theorem apply_force_static (b : Body) (f : Point) (p? : Option Point)
    (hs : b.static = true) : b.apply_force f p? = b := by
  simp [Body.apply_force, hs]

theorem integrate_static (b : Body) (dt : ℚ) (hs : b.static = true) :
    b.integrate dt = b := by
  simp [Body.integrate, hs]

theorem idf_preserves : ∀ (bs bs' : List Body), applyIDFList bs = .ok bs' →
    PreservesStatic bs bs' := by
  intro bs
  induction bs with
  | nil =>
    intro bs' h
    obtain rfl : ([] : List Body) = bs' := by
      simpa [applyIDFList] using h
    intro i b hb _
    exact hb
  | cons x xs ih =>
    intro bs' h
    by_cases hx : x.static
    · rw [applyIDFList, if_pos hx] at h
      cases hrest : applyIDFList xs with
      | error e => rw [hrest] at h; exact absurd h (by simp)
      | ok rest' =>
        rw [hrest] at h
        obtain rfl := Except.ok.inj h
        intro i b hb hs
        cases i with
        | zero => exact hb
        | succ n => exact ih rest' hrest n b (by simpa using hb) hs
    · rw [applyIDFList, if_neg hx] at h
      simp [Field.applyInvDist] at h

theorem field_preserves (f : Field) (bs bs' : List Body)
    (h : f.apply bs = .ok bs') : PreservesStatic bs bs' := by
  cases f with
  | gravity g =>
    obtain rfl := Except.ok.inj h
    exact preserves_map bs _ (fun b hb => by simp [hb])
  | drag k =>
    obtain rfl := Except.ok.inj h
    exact preserves_map bs _ (fun b hb => by simp [hb])
  | invDist intensity center exponent => exact idf_preserves bs bs' h

theorem stepFields_preserves : ∀ (fs : List Field) (bs bs' : List Body),
    stepFields fs bs = .ok bs' → PreservesStatic bs bs' := by
  intro fs
  induction fs with
  | nil =>
    intro bs bs' h
    obtain rfl := Except.ok.inj h
    exact preserves_refl bs
  | cons f rest ih =>
    intro bs bs' h
    cases happ : f.apply bs with
    | error e =>
      rw [stepFields, happ] at h
      simp only [Bind.bind, Except.bind] at h
      exact Except.noConfusion h
    | ok mid =>
      rw [stepFields, happ] at h
      simp only [Bind.bind, Except.bind] at h
      exact preserves_trans (field_preserves f bs mid happ) (ih mid bs' h)

theorem constraint_preserves (O : NumOracle) (c : Constraint) (bs : List Body) :
    PreservesStatic bs (Constraint.solve O c bs) := by
  cases c with
  | spring i j length k damping =>
    simp only [Constraint.solve]
    cases hga : bs.get? i with
    | none => exact preserves_refl bs
    | some a =>
      cases hgb : bs.get? j with
      | none => exact preserves_refl bs
      | some b =>
        dsimp only
        by_cases hd : ((b.pos - a.pos).magnitude O.sqrtQ) = 0
        · rw [if_pos hd]; exact preserves_refl bs
        · rw [if_neg hd]
          split
          next b1 hgb1 =>
            exact preserves_trans
              (preserves_set bs i _ a hga (fun hsa => apply_force_static a _ none hsa))
              (preserves_set _ j _ b1 hgb1 (fun hsb => apply_force_static b1 _ none hsb))
          next hgb1 =>
            exact preserves_set bs i _ a hga (fun hsa => apply_force_static a _ none hsa)
  | rod i j length =>
    simp only [Constraint.solve]
    cases hga : bs.get? i with
    | none => exact preserves_refl bs
    | some a =>
      cases hgb : bs.get? j with
      | none => exact preserves_refl bs
      | some b =>
        dsimp only
        by_cases hd : ((b.pos - a.pos).magnitude O.sqrtQ) = 0
        · rw [if_pos hd]; exact preserves_refl bs
        · rw [if_neg hd]
          by_cases htm : a.inv_mass + b.inv_mass = 0
          · rw [if_pos htm]; exact preserves_refl bs
          · rw [if_neg htm]
            have h1 : ∀ bs1 : List Body,
                (bs1 = if a.static then bs
                  else bs.set i { a with pos := a.pos +
                    ((b.pos - a.pos) / (b.pos - a.pos).magnitude O.sqrtQ) *
                      (((b.pos - a.pos).magnitude O.sqrtQ - length) /
                        (a.inv_mass + b.inv_mass)) * a.inv_mass }) →
                PreservesStatic bs bs1 := by
              intro bs1 hbs1
              by_cases hsa : a.static
              · rw [if_pos hsa] at hbs1; subst hbs1; exact preserves_refl _
              · rw [if_neg hsa] at hbs1; subst hbs1
                exact preserves_set bs i _ a hga
                  (fun h => absurd h (by simp [hsa]))
            split
            next b1 hgb1 =>
              refine preserves_trans (h1 _ rfl) ?_
              by_cases hsb : b1.static
              · rw [if_pos hsb]; exact preserves_refl _
              · rw [if_neg hsb]
                exact preserves_set _ j _ b1 hgb1
                  (fun h => absurd h (by simp [hsb]))
            next hgb1 => exact h1 _ rfl

theorem constraints_fold_preserves (O : NumOracle) :
    ∀ (cs : List Constraint) (bs : List Body),
    PreservesStatic bs (cs.foldl (fun x c => Constraint.solve O c x) bs) := by
  intro cs
  induction cs with
  | nil => intro bs; exact preserves_refl bs
  | cons c rest ih =>
    intro bs
    simp only [List.foldl]
    exact preserves_trans (constraint_preserves O c bs) (ih _)

theorem ctc_roles (sq : ℚ → ℚ) (x y : Body) (c : Collision)
    (h : circle_to_circle sq x y = some c) : c.a = x ∧ c.b = y := by
  unfold circle_to_circle at h
  rcases h1 : x.collider with r1 | ⟨w1, hh1⟩ <;> rw [h1] at h <;>
    rcases h2 : y.collider with r2 | ⟨w2, hh2⟩ <;> rw [h2] at h <;>
      simp only [] at h
  · split at h
    · exact Option.noConfusion h
    · obtain rfl := Option.some.inj h
      exact ⟨rfl, rfl⟩
  all_goals simp at h

theorem ctb_roles (O : NumOracle) (x y : Body) (c : Collision)
    (h : circle_to_box O x y = some c) : c.a = x ∧ c.b = y := by
  unfold circle_to_box at h
  rcases h1 : x.collider with r1 | ⟨w1, hh1⟩ <;> rw [h1] at h <;>
    rcases h2 : y.collider with r2 | ⟨w2, hh2⟩ <;> rw [h2] at h <;>
      simp only [] at h
  · simp at h
  · split at h
    · exact Option.noConfusion h
    · obtain rfl := Option.some.inj h
      exact ⟨rfl, rfl⟩
  · simp at h
  · simp at h

theorem bb_roles (O : NumOracle) (x y : Body) (c : Collision)
    (h : box_to_box O x y = some c) : c.a = x ∧ c.b = y := by
  unfold box_to_box at h
  dsimp only at h
  split at h
  · exact Option.noConfusion h
  · exact Option.noConfusion h
  · obtain rfl := Option.some.inj h
    exact ⟨rfl, rfl⟩

theorem solve_roles (O : NumOracle) (a b : Body) (c : Collision)
    (h : Collision.solve O a b = some c) : c.a = a ∧ c.b = b := by
  unfold Collision.solve at h
  rcases h1 : a.collider with r1 | ⟨w1, hh1⟩ <;> rw [h1] at h <;>
    rcases h2 : b.collider with r2 | ⟨w2, hh2⟩ <;> rw [h2] at h <;>
      simp only [] at h
  · cases hcc : circle_to_circle O.sqrtQ b a with
    | none => rw [hcc] at h; exact Option.noConfusion h
    | some c0 =>
      rw [hcc] at h
      obtain rfl := Option.some.inj h
      obtain ⟨hra, hrb⟩ := ctc_roles O.sqrtQ b a c0 hcc
      exact ⟨by simp [hrb], by simp [hra]⟩
  · exact ctb_roles O a b c h
  · cases hcb : circle_to_box O b a with
    | none => rw [hcb] at h; exact Option.noConfusion h
    | some c0 =>
      rw [hcb] at h
      obtain rfl := Option.some.inj h
      obtain ⟨hra, hrb⟩ := ctb_roles O b a c0 hcb
      exact ⟨by simp [hrb], by simp [hra]⟩
  · cases hbb : box_to_box O b a with
    | none => rw [hbb] at h; exact Option.noConfusion h
    | some c0 =>
      rw [hbb] at h
      obtain rfl := Option.some.inj h
      obtain ⟨hra, hrb⟩ := bb_roles O b a c0 hbb
      exact ⟨by simp [hrb], by simp [hra]⟩

theorem apply_impulse_static_a (a b : Body) (imp ra rb : Point)
    (hs : a.static = true) : (Collision.apply_impulse a b imp ra rb).1 = a := by
  simp [Collision.apply_impulse, hs]

theorem apply_impulse_static_b (a b : Body) (imp ra rb : Point)
    (hs : b.static = true) : (Collision.apply_impulse a b imp ra rb).2 = b := by
  simp [Collision.apply_impulse, hs]

theorem resolve_static_a (O : NumOracle) (c : Collision)
    (hs : c.a.static = true) : (c.resolve O).1 = c.a := by
  unfold Collision.resolve
  dsimp only
  split
  · rfl
  · simp [Collision.apply_impulse, hs, apply_ite Prod.fst]

theorem resolve_static_b (O : NumOracle) (c : Collision)
    (hs : c.b.static = true) : (c.resolve O).2 = c.b := by
  unfold Collision.resolve
  dsimp only
  split
  · rfl
  · simp [Collision.apply_impulse, hs, apply_ite Prod.snd]

theorem pairStep_preserves (O : NumOracle) (bs : List Body) (i j : ℕ)
    (hij : i ≠ j) : PreservesStatic bs (pairStep O bs i j) := by
  unfold pairStep
  cases hga : bs.get? i with
  | none => exact preserves_refl bs
  | some a =>
    cases hgb : bs.get? j with
    | none => exact preserves_refl bs
    | some b =>
      dsimp only
      split
      · exact preserves_refl bs
      · split
        next col hcol =>
          obtain ⟨hca, hcb⟩ := solve_roles O a b col hcol
          have h1 : PreservesStatic bs (bs.set i (col.resolve O).1) :=
            preserves_set bs i _ a hga (fun hsa => by
              rw [resolve_static_a O col (by rw [hca]; exact hsa), hca])
          refine preserves_trans h1 ?_
          have hgb2 : (bs.set i (col.resolve O).1).get? j = some b := by
            rw [get_set_diff bs i j _ hij, hgb]
          exact preserves_set _ j _ b hgb2 (fun hsb => by
            rw [resolve_static_b O col (by rw [hcb]; exact hsb), hcb])
        next hcol => exact preserves_refl bs

theorem foldl_preserves {β : Type} (g : List Body → β → List Body)
    (hg : ∀ bs x, PreservesStatic bs (g bs x)) :
    ∀ (l : List β) (bs : List Body), PreservesStatic bs (l.foldl g bs) := by
  intro l
  induction l with
  | nil => intro bs; exact preserves_refl bs
  | cons x xs ih =>
    intro bs
    simp only [List.foldl]
    exact preserves_trans (hg bs x) (ih _)

theorem collidePairs_preserves (O : NumOracle) (bs : List Body) :
    PreservesStatic bs (collidePairs O bs) := by
  unfold collidePairs
  refine foldl_preserves _ ?_ _ bs
  intro bs1 i
  refine foldl_preserves _ ?_ _ bs1
  intro bs2 j
  by_cases hij : i < j
  · rw [if_pos hij]
    exact pairStep_preserves O bs2 i j (Nat.ne_of_lt hij)
  · rw [if_neg hij]
    exact preserves_refl bs2

theorem step_preserves (O : NumOracle) (w w' : World) (dt : ℚ)
    (h : w.step O dt = .ok w') : PreservesStatic w.bodies w'.bodies := by
  unfold World.step at h
  cases hsf : stepFields w.fields w.bodies with
  | error e =>
    rw [hsf] at h
    simp only [Bind.bind, Except.bind] at h
    exact Except.noConfusion h
  | ok mid =>
    rw [hsf] at h
    simp only [Bind.bind, Except.bind] at h
    obtain rfl := Except.ok.inj h
    refine preserves_trans (stepFields_preserves w.fields w.bodies mid hsf) ?_
    refine preserves_trans (constraints_fold_preserves O w.constraints mid) ?_
    refine preserves_trans
      (preserves_map _ _ (fun b hb => integrate_static b dt hb)) ?_
    exact collidePairs_preserves O _

theorem stepN_preserves (O : NumOracle) (dt : ℚ) :
    ∀ (n : ℕ) (w w' : World), w.stepN O dt n = .ok w' →
      PreservesStatic w.bodies w'.bodies := by
  intro n
  induction n with
  | zero =>
    intro w w' h
    obtain rfl := Except.ok.inj h
    exact preserves_refl _
  | succ m ih =>
    intro w w' h
    rw [World.stepN] at h
    cases hst : w.step O dt with
    | error e =>
      rw [hst] at h
      simp only [Bind.bind, Except.bind] at h
      exact Except.noConfusion h
    | ok mid =>
      rw [hst] at h
      simp only [Bind.bind, Except.bind] at h
      exact preserves_trans (step_preserves O w mid dt hst) (ih mid w' h)

/-- C3: a body constructed static is frozen — after any number of _step
calls (any fields, constraints and other bodies, provided the run
completes), its position, velocity, rotation angle and angular velocity
are unchanged: integration skips it, field and constraint forces on it are
discarded, and collision impulses and positional corrections never touch
it (the underlying preservation lemma shows the whole record unchanged). -/
theorem claim_C3_static_invariant (O : NumOracle) (w w' : World) (dt : ℚ)
    (n i : ℕ) (b : Body) (hb : w.bodies.get? i = some b) (hs : b.static = true)
    (hrun : w.stepN O dt n = .ok w') :
    ∃ b', w'.bodies.get? i = some b' ∧ b'.pos = b.pos ∧ b'.vel = b.vel ∧
      b'.angle = b.angle ∧ b'.angular_vel = b.angular_vel :=
  ⟨b, stepN_preserves O dt n w w' hrun i b hb hs, rfl, rfl, rfl, rfl⟩

/-- One concrete _step of the static-invariant scenario world: the static
body is untouched while the dynamic one falls under gravity; the pair does
not collide. -/
theorem statWorld_step : World.stepN scenOracle statWorld 1 1 = .ok statWorldAfter := by
  norm_num [World.stepN, World.step, stepFields, Field.apply, statWorld,
    statWorldAfter, statBody, dynBody, Body.init, circleShape, Bounds.center,
    Material.default, Body.integrate, collidePairs, pairStep, Collision.solve,
    circle_to_circle, Point.magnitude, Point.normalize, scenOracle, scenSqrt,
    List.range_succ, Bind.bind, Except.bind, Point.add_def, Point.sub_def,
    Point.smul_def, Point.sdiv_def]

/-- C3 witness: the static invariant on the concrete two-body world with
gravity, after one completed step. -/
theorem claim_C3_witness :
    ∃ b', statWorldAfter.bodies.get? 0 = some b' ∧ b'.pos = statBody.pos ∧
      b'.vel = statBody.vel ∧ b'.angle = statBody.angle ∧
      b'.angular_vel = statBody.angular_vel :=
  claim_C3_static_invariant scenOracle statWorld statWorldAfter 1 1 0 statBody
    rfl rfl statWorld_step

/-- C8: one Rod.solve on two dynamic bodies of equal inverse mass at
(0, 0) and (100, 0) with rest length 50 moves each body 25 units toward
the other along x, leaving them exactly 50 apart, and does not touch
either velocity. -/
theorem claim_C8_rod_scenario (O : NumOracle) (a b : Body) (im : ℚ)
    (hapos : a.pos = ⟨0, 0⟩) (hbpos : b.pos = ⟨100, 0⟩)
    (has : a.static = false) (hbs : b.static = false)
    (hai : a.inv_mass = im) (hbi : b.inv_mass = im) (him : 0 < im)
    (hsq : O.sqrtQ 10000 = 100) :
    ∃ a' b', Constraint.solve O (.rod 0 1 50) [a, b] = [a', b'] ∧
      a'.pos = ⟨25, 0⟩ ∧ b'.pos = ⟨75, 0⟩ ∧ b'.pos - a'.pos = ⟨50, 0⟩ ∧
      a'.vel = a.vel ∧ b'.vel = b.vel := by
  have harg : (b.pos - a.pos).x * (b.pos - a.pos).x +
      (b.pos - a.pos).y * (b.pos - a.pos).y = 10000 := by
    rw [hapos, hbpos]; norm_num
  have hd : (b.pos - a.pos).magnitude O.sqrtQ = 100 := by
    rw [Point.magnitude, harg, hsq]
  have him2 : im + im ≠ 0 := by positivity
  refine ⟨{ a with pos := ⟨25, 0⟩ }, { b with pos := ⟨75, 0⟩ }, ?_, rfl, rfl,
    by apply Point.ext_xy <;> norm_num, rfl, rfl⟩
  simp only [Constraint.solve, List.get?]
  rw [hd]
  rw [if_neg (by norm_num)]
  rw [if_neg (by rw [hai, hbi]; positivity)]
  rw [if_neg (by simp [has])]
  simp only [List.set, List.get?]
  rw [if_neg (by simp [hbs])]
  simp only [List.set, List.cons.injEq, Body.mk.injEq, and_true, true_and,
    and_self, hapos, hbpos, hai, hbi]
  constructor
  · apply Point.ext_xy
    · simp only [Point.add_x, Point.smul_x, Point.sdiv_x, Point.sub_x]
      field_simp
      ring
    · simp only [Point.add_y, Point.smul_y, Point.sdiv_y, Point.sub_y]
      field_simp
  · apply Point.ext_xy
    · simp only [Point.sub_x, Point.smul_x, Point.sdiv_x]
      field_simp
      ring
    · simp only [Point.sub_y, Point.smul_y, Point.sdiv_y]
      field_simp

/-- C8 witness: the rod scenario on the concrete radius-5 circle bodies
(inverse mass 10 each). -/
theorem claim_C8_witness :
    ∃ a' b', Constraint.solve scenOracle (.rod 0 1 50) [rodA, rodB] = [a', b'] ∧
      a'.pos = ⟨25, 0⟩ ∧ b'.pos = ⟨75, 0⟩ ∧ b'.pos - a'.pos = ⟨50, 0⟩ ∧
      a'.vel = rodA.vel ∧ b'.vel = rodB.vel :=
  claim_C8_rod_scenario scenOracle rodA rodB 10 rfl rfl rfl rfl
    (by norm_num [rodA, Body.init, circleShape, Material.default])
    (by norm_num [rodB, rodA, Body.init, circleShape, Material.default])
    (by norm_num) (by norm_num [scenOracle, scenSqrt])

/-- C6 counterexample: for overlapping circles with coincident centers,
solve(a, b) and solve(b, a) both return the SAME normal (-1, 0) — the
flipped fallback — not negated ones as the symmetry contract demands. -/
theorem claim_C6_cex :
    (Collision.solve scenOracle cA cCoin).map (fun c => c.normal) = some ⟨-1, 0⟩
  ∧ (Collision.solve scenOracle cCoin cA).map (fun c => c.normal) = some ⟨-1, 0⟩
  ∧ (Point.mk (-1) 0) ≠ (Point.mk (-1) 0) * (-1 : ℚ) := by
  norm_num [Collision.solve, cA, cCoin, Body.init, circleShape, Bounds.center,
    circle_to_circle, Collision.flip, Point.magnitude, Point.normalize,
    scenOracle, scenSqrt, Material.default, Point.smul_def, Point.add_def,
    Point.sub_def, Point.sdiv_def]


/-! Helpers for the box-box symmetry case of C6. -/

theorem vertices_axis_aligned (O : NumOracle) (b : Body) (w h : ℚ)
    (hb : b.collider = .box w h) (hc0 : O.cosQ 0 = 1) (hs0 : O.sinQ 0 = 0) :
    get_box_vertices O b =
      [⟨b.pos.x - w/2, b.pos.y - h/2⟩, ⟨b.pos.x + w/2, b.pos.y - h/2⟩,
       ⟨b.pos.x + w/2, b.pos.y + h/2⟩, ⟨b.pos.x - w/2, b.pos.y + h/2⟩] := by
  simp only [get_box_vertices, hb, hc0, hs0, List.map]
  norm_num [Point.mk.injEq]
  refine ⟨⟨by ring, by ring⟩, ⟨by ring, by ring⟩, ⟨by ring, by ring⟩, by ring, by ring⟩

theorem normalize_val (sq : ℚ → ℚ) (p : Point) (s : ℚ)
    (harg : sq (p.x * p.x + p.y * p.y) = s) (hs : s ≠ 0) :
    Point.normalize sq p = ⟨p.x / s, p.y / s⟩ := by
  rw [Point.normalize, Point.magnitude]
  rw [harg, if_neg hs]

theorem axes_of_rect (sq : ℚ → ℚ) (px py w h : ℚ) (hw : 0 < w) (hh : 0 < h)
    (hsw : sq (w * w) = w) (hsh : sq (h * h) = h) :
    get_axes sq [⟨px - w/2, py - h/2⟩, ⟨px + w/2, py - h/2⟩,
                 ⟨px + w/2, py + h/2⟩, ⟨px - w/2, py + h/2⟩] =
      [⟨0, 1⟩, ⟨-1, 0⟩, ⟨0, -1⟩, ⟨1, 0⟩] := by
  have e1 : ((⟨px + w/2, py - h/2⟩ : Point) - ⟨px - w/2, py - h/2⟩) = ⟨w, 0⟩ := by
    apply Point.ext_xy <;> simp <;> ring
  have e2 : ((⟨px + w/2, py + h/2⟩ : Point) - ⟨px + w/2, py - h/2⟩) = ⟨0, h⟩ := by
    apply Point.ext_xy <;> simp <;> ring
  have e3 : ((⟨px - w/2, py + h/2⟩ : Point) - ⟨px + w/2, py + h/2⟩) = ⟨-w, 0⟩ := by
    apply Point.ext_xy <;> simp <;> ring
  have e4 : ((⟨px - w/2, py - h/2⟩ : Point) - ⟨px - w/2, py + h/2⟩) = ⟨0, -h⟩ := by
    apply Point.ext_xy <;> simp <;> ring
  simp only [get_axes, List.length_cons, List.length_nil]
  rw [show List.range 4 = [0, 1, 2, 3] from rfl]
  simp only [List.map, List.getD, List.get?]
  norm_num [e1, e2, e3, e4]
  refine ⟨?_, ?_, ?_, ?_⟩
  · rw [normalize_val sq ⟨0, w⟩ w (by dsimp only; rw [show (0:ℚ) * 0 + w * w = w * w from by ring, hsw]) (ne_of_gt hw)]
    apply Point.ext_xy <;> simp
    exact div_self (ne_of_gt hw)
  · rw [normalize_val sq ⟨-h, 0⟩ h (by dsimp only; rw [show (-h) * (-h) + (0:ℚ) * 0 = h * h from by ring, hsh]) (ne_of_gt hh)]
    apply Point.ext_xy <;> simp
    rw [neg_div, div_self (ne_of_gt hh)]
  · rw [normalize_val sq ⟨0, -w⟩ w (by dsimp only; rw [show (0:ℚ) * 0 + (-w) * (-w) = w * w from by ring, hsw]) (ne_of_gt hw)]
    apply Point.ext_xy <;> simp
    rw [neg_div, div_self (ne_of_gt hw)]
  · rw [normalize_val sq ⟨h, 0⟩ h (by dsimp only; rw [show (h:ℚ) * h + 0 * 0 = h * h from by ring, hsh]) (ne_of_gt hh)]
    apply Point.ext_xy <;> simp
    exact div_self (ne_of_gt hh)


theorem sat_loop_swap (A B : List Point) :
    ∀ (axes : List Point) (st : Option (ℚ × Point)),
      sat_loop B A axes st = sat_loop A B axes st := by
  intro axes
  induction axes with
  | nil => intro st; rfl
  | cons ax rest ih =>
    intro st
    simp only [sat_loop]
    cases hA : project A ax with
    | none =>
      cases hB : project B ax with
      | none => rfl
      | some pB => rcases pB with ⟨minB, maxB⟩; rfl
    | some pA =>
      rcases pA with ⟨minA, maxA⟩
      cases hB : project B ax with
      | none => rfl
      | some pB =>
        rcases pB with ⟨minB, maxB⟩
        dsimp only
        by_cases hgap : maxA < minB ∨ maxB < minA
        · rw [if_pos (Or.symm hgap), if_pos hgap]
        · rw [if_neg (fun hc => hgap (Or.symm hc)), if_neg hgap]
          rw [min_comm maxB maxA, max_comm minB minA]
          exact ih _


/-- C6 amended: solve(a, b) and solve(b, a) either both return none or
report equal depths, negated normals and swapped body fields, PROVIDED the
pair is nondegenerate: for circle-circle, the computed center distance is
positive; for box-box, the square-root oracle is exact on the (positive)
edge lengths and the selected minimum-overlap SAT axis is not
perpendicular to the center offset.  In the degenerate cases both calls
return the same, not negated, normal (see the counterexample). -/
theorem claim_C6_amended (O : NumOracle) (a b : Body) (hnd : NonDeg O a b) :
    SymmetricAt O a b := by
  rcases h1 : a.collider with r1 | ⟨w1, hh1⟩ <;>
    rcases h2 : b.collider with r2 | ⟨w2, hh2⟩
  · -- circle / circle
    simp only [NonDeg, h1, h2] at hnd
    rw [Point.magnitude] at hnd
    have harg : (a.pos - b.pos).x * (a.pos - b.pos).x +
        (a.pos - b.pos).y * (a.pos - b.pos).y =
        (b.pos - a.pos).x * (b.pos - a.pos).x +
        (b.pos - a.pos).y * (b.pos - a.pos).y := by
      simp only [Point.sub_x, Point.sub_y]; ring
    unfold SymmetricAt
    simp only [Collision.solve, h1, h2]
    simp only [circle_to_circle, h1, h2, Point.magnitude]
    simp only [harg]
    by_cases hsep : r2 + r1 < O.sqrtQ ((b.pos - a.pos).x * (b.pos - a.pos).x +
        (b.pos - a.pos).y * (b.pos - a.pos).y)
    · have hsep2 : r1 + r2 < O.sqrtQ ((b.pos - a.pos).x * (b.pos - a.pos).x +
          (b.pos - a.pos).y * (b.pos - a.pos).y) := by
        rw [add_comm]; exact hsep
      rw [if_pos hsep, if_pos hsep2]
      simp
    · have hsep2 : ¬ r1 + r2 < O.sqrtQ ((b.pos - a.pos).x * (b.pos - a.pos).x +
          (b.pos - a.pos).y * (b.pos - a.pos).y) := by
        rw [add_comm]; exact hsep
      rw [if_neg hsep, if_neg hsep2]
      rw [if_pos hnd, if_pos hnd]
      rw [normalize_val O.sqrtQ (a.pos - b.pos) _ (by rw [harg]) (ne_of_gt hnd)]
      rw [normalize_val O.sqrtQ (b.pos - a.pos) _ rfl (ne_of_gt hnd)]
      simp only [Option.map_some']
      refine ⟨by simp; ring, ?_, by simp, by simp⟩
      simp only [Collision.flip_normal]
      apply Point.ext_xy <;> simp <;> ring
  · -- circle / box
    unfold SymmetricAt
    simp only [Collision.solve, h1, h2]
    cases hres : circle_to_box O a b with
    | none => simp
    | some c0 =>
      simp only [Option.map_some']
      exact ⟨by simp, by simp [Point.double_flip], by simp, by simp⟩
  · -- box / circle
    unfold SymmetricAt
    simp only [Collision.solve, h1, h2]
    cases hres : circle_to_box O b a with
    | none => simp
    | some c0 =>
      simp only [Option.map_some']
      simp
  · -- box / box
    simp only [NonDeg, h1, h2] at hnd
    obtain ⟨⟨hc0, hs0⟩, ⟨hw1, hh1p, hw2, hh2p⟩, ⟨hsw1, hsh1, hsw2, hsh2⟩, hax⟩ := hnd
    have hva := vertices_axis_aligned O a w1 hh1 h1 hc0 hs0
    have hvb := vertices_axis_aligned O b w2 hh2 h2 hc0 hs0
    have haxA : get_axes O.sqrtQ (get_box_vertices O a) =
        [⟨0, 1⟩, ⟨-1, 0⟩, ⟨0, -1⟩, ⟨1, 0⟩] := by
      rw [hva]; exact axes_of_rect O.sqrtQ a.pos.x a.pos.y w1 hh1 hw1 hh1p hsw1 hsh1
    have haxB : get_axes O.sqrtQ (get_box_vertices O b) =
        [⟨0, 1⟩, ⟨-1, 0⟩, ⟨0, -1⟩, ⟨1, 0⟩] := by
      rw [hvb]; exact axes_of_rect O.sqrtQ b.pos.x b.pos.y w2 hh2 hw2 hh2p hsw2 hsh2
    unfold SymmetricAt
    simp only [Collision.solve, h1, h2]
    unfold box_to_box
    dsimp only
    rw [haxA, haxB, sat_loop_swap]
    cases hres : sat_loop (get_box_vertices O a) (get_box_vertices O b)
        ([(⟨0, 1⟩ : Point), ⟨-1, 0⟩, ⟨0, -1⟩, ⟨1, 0⟩] ++
         [(⟨0, 1⟩ : Point), ⟨-1, 0⟩, ⟨0, -1⟩, ⟨1, 0⟩]) none with
    | none => simp
    | some st =>
      cases st with
      | none => simp
      | some p =>
        rcases p with ⟨ov, ax⟩
        have hdot : dot ax (b.pos - a.pos) ≠ 0 := by
          apply hax ov ax
          rw [haxA, haxB]
          exact hres
        dsimp only
        by_cases hpos : 0 < dot ax (b.pos - a.pos)
        · have hcond1 : (a.pos - b.pos).x * ax.x + (a.pos - b.pos).y * ax.y < 0 := by
            have : (a.pos - b.pos).x * ax.x + (a.pos - b.pos).y * ax.y =
                -(dot ax (b.pos - a.pos)) := by
              simp only [dot, Point.sub_x, Point.sub_y]; ring
            rw [this]; linarith
          have hcond2 : ¬((b.pos - a.pos).x * ax.x + (b.pos - a.pos).y * ax.y < 0) := by
            have : (b.pos - a.pos).x * ax.x + (b.pos - a.pos).y * ax.y =
                dot ax (b.pos - a.pos) := by
              simp only [dot, Point.sub_x, Point.sub_y]; ring
            rw [this]; linarith
          rw [if_pos hcond1, if_neg hcond2]
          simp only [Option.map_some']
          refine ⟨by simp, ?_, by simp, by simp⟩
          simp [Point.double_flip]
        · have hneg : dot ax (b.pos - a.pos) < 0 := by
            rcases lt_trichotomy (dot ax (b.pos - a.pos)) 0 with h | h | h
            · exact h
            · exact absurd h hdot
            · exact absurd h hpos
          have hcond1 : ¬((a.pos - b.pos).x * ax.x + (a.pos - b.pos).y * ax.y < 0) := by
            have : (a.pos - b.pos).x * ax.x + (a.pos - b.pos).y * ax.y =
                -(dot ax (b.pos - a.pos)) := by
              simp only [dot, Point.sub_x, Point.sub_y]; ring
            rw [this]; linarith
          have hcond2 : (b.pos - a.pos).x * ax.x + (b.pos - a.pos).y * ax.y < 0 := by
            have : (b.pos - a.pos).x * ax.x + (b.pos - a.pos).y * ax.y =
                dot ax (b.pos - a.pos) := by
              simp only [dot, Point.sub_x, Point.sub_y]; ring
            rw [this]; linarith
          rw [if_neg hcond1, if_pos hcond2]
          simp only [Option.map_some']
          refine ⟨by simp, ?_, by simp, by simp⟩
          simp [Point.double_flip]

/-- C6 witness: the symmetry contract on the nondegenerate concrete
overlapping circle pair at distance 15. -/
theorem claim_C6_witness :
    SymmetricAt scenOracle cA cBnear :=
  claim_C6_amended scenOracle cA cBnear
    (show (0:ℚ) < (cBnear.pos - cA.pos).magnitude scenOracle.sqrtQ by
      norm_num [cA, cBnear, Body.init, circleShape, Bounds.center,
        Point.magnitude, scenOracle, scenSqrt, Material.default, Point.sub_def])

end Tesserax
